import Mathlib

/-!
Verification of the Bifrost / RPC-router subsystems of the restate repository.

The definitions below are shallow embeddings of the Rust sources:

- `src/crates/network/src/rpc_router.rs` (ResponseTracker, RpcToken)
- `src/crates/bifrost/src/bifrost.rs` (BifrostInner entry points)
- `src/crates/bifrost/src/loglets/local_loglet/provider.rs` (LocalLogletProvider)
- `src/crates/rocksdb/src/background.rs` (ReadyStorageTask metrics)

Machine integers (u64 LSNs) are modelled as `Nat`; the u64 maximum is the
explicit constant `LsnMAX`.  Fallible Rust code returns `Except`; oneshot
channels are modelled by explicit channel identifiers together with the set of
channel ids whose receiver half has been dropped.
-/

namespace Restate

/-! ### Association list helpers

`DashMap` / `HashMap` state is modelled as an association list with distinct
keys.  `alookup` is `get`, `aremove` removes every binding of a key (on states
with distinct keys: the unique binding), and `ainsertReplace` mirrors
`DashMap::insert`, which stores the new value and returns the old one. -/

def alookup {α β : Type} [DecidableEq α] : List (α × β) → α → Option β
  | [], _ => none
  | (a, v) :: rest, k => if a = k then some v else alookup rest k

def aremove {α β : Type} [DecidableEq α] : List (α × β) → α → List (α × β)
  | [], _ => []
  | (a, v) :: rest, k =>
    if a = k then aremove rest k else (a, v) :: aremove rest k

def ainsertReplace {α β : Type} [DecidableEq α] (m : List (α × β)) (k : α)
    (v : β) : List (α × β) :=
  (k, v) :: aremove m k

theorem alookup_remove_self {β : Type} (m : List (Nat × β)) (k : Nat) :
    alookup (aremove m k) k = none := by
  induction m with
  | nil => rfl
  | cons e rest ih =>
    cases e with
    | mk a v =>
      by_cases h : a = k <;> simp [aremove, alookup, h, ih]

theorem aremove_of_lookup_none {β : Type} (m : List (Nat × β)) (k : Nat)
    (h : alookup m k = none) : aremove m k = m := by
  induction m with
  | nil => rfl
  | cons e rest ih =>
    cases e with
    | mk a v =>
      by_cases he : a = k
      · simp [alookup, he] at h
      · simp [alookup, he] at h
        simp [aremove, he, ih h]

theorem alookup_mem {β : Type} (m : List (Nat × β)) (k : Nat) (v : β)
    (h : alookup m k = some v) : (k, v) ∈ m := by
  induction m with
  | nil => simp [alookup] at h
  | cons e rest ih =>
    cases e with
    | mk a w =>
      by_cases he : a = k
      · subst he
        simp [alookup] at h
        simp [h]
      · simp [alookup, he] at h
        exact List.mem_cons_of_mem _ (ih h)

theorem alookup_isSome_of_mem_keys {β : Type} (m : List (Nat × β)) (k : Nat)
    (h : k ∈ m.map Prod.fst) : (alookup m k).isSome := by
  induction m with
  | nil => simp at h
  | cons e rest ih =>
    cases e with
    | mk a w =>
      by_cases he : a = k
      · simp [alookup, he]
      · simp [alookup, he]
        apply ih
        simpa [Ne.symm he] using h

/-! ### RPC correlation router

Shallow embedding of `ResponseTracker` / `RpcToken` from
`src/crates/network/src/rpc_router.rs`.  Correlation ids and message payloads
are `Nat`; a message envelope is the pair (correlation id, payload).  Each
oneshot channel is named by the counter `nextChan`; `deadReceivers` collects
the channels whose receiver half has been dropped, and `delivered` the values
successfully sent into a live channel. -/

structure RpcToken where
  correlationId : Nat
  chan : Nat
deriving Repr, DecidableEq

structure TrackerState where
  inFlight : List (Nat × Nat)
  deadReceivers : List Nat
  delivered : List (Nat × Nat)
  nextChan : Nat
deriving Repr, DecidableEq

def initTracker : TrackerState := ⟨[], [], [], 0⟩

def numInFlight (s : TrackerState) : Nat := s.inFlight.length

/-- `ResponseTracker::new_token` (rpc_router.rs lines 132-150): a fresh oneshot
channel is created, the sender is inserted into `in_flight` (replacing any old
binding, as `DashMap::insert` does), and only then the old binding is checked.
If one existed, `None` is returned and the fresh receiver is dropped. -/
def newToken (s : TrackerState) (cid : Nat) : Option RpcToken × TrackerState :=
  let ch := s.nextChan
  let existing := alookup s.inFlight cid
  let s1 : TrackerState :=
    { s with inFlight := ainsertReplace s.inFlight cid ch, nextChan := ch + 1 }
  match existing with
  | some _ => (none, { s1 with deadReceivers := ch :: s1.deadReceivers })
  | none => (some ⟨cid, ch⟩, s1)

/-- `ResponseTracker::handle_message` (rpc_router.rs lines 154-166): remove the
entry matching the correlation id and send the envelope through its sender
(the value lands in the channel only when the receiver half is still alive);
without a match the envelope is handed back. -/
def handleMessage (s : TrackerState) (cid msg : Nat) :
    Option (Nat × Nat) × TrackerState :=
  match alookup s.inFlight cid with
  | some ch =>
    let s1 := { s with inFlight := aremove s.inFlight cid }
    if ch ∈ s.deadReceivers then (none, s1)
    else (none, { s1 with delivered := (ch, msg) :: s1.delivered })
  | none => (some (cid, msg), s)

/-- `impl Drop for RpcToken` (rpc_router.rs lines 280-291): remove whatever
entry currently holds the correlation id; the receiver half dies with the
token. -/
def dropToken (s : TrackerState) (t : RpcToken) : TrackerState :=
  { s with inFlight := aremove s.inFlight t.correlationId,
           deadReceivers := t.chan :: s.deadReceivers }

/-- `RpcToken::recv` (rpc_router.rs lines 257-277): consume the receiver; on
return the token is forgotten, so no drop cleanup runs.  The result is the
value that was sent into the channel, if any. -/
def recvToken (s : TrackerState) (t : RpcToken) : Option Nat × TrackerState :=
  (alookup s.delivered t.chan,
   { s with deadReceivers := t.chan :: s.deadReceivers })

/-- Claim C2 counterexample input: two `new_token` calls with correlation id 1
on a fresh tracker. -/
def dupSecondCall : Option RpcToken × TrackerState :=
  newToken (newToken initTracker 1).2 1

/-- Claim C2, counterexample.  On a fresh tracker, create a token for cid 1 and
then call `new_token(1)` again: the duplicate call returns `None` as claimed,
but the stored entry for cid 1 is replaced (channel 1 instead of channel 0), so
the pre-existing in-flight sender is not left unchanged. -/
theorem c2_new_token_replaces_entry :
    dupSecondCall.1 = none ∧
    alookup dupSecondCall.2.inFlight 1 ≠ alookup (newToken initTracker 1).2.inFlight 1 := by
  constructor
  · rfl
  · decide

/-- Claim C2, amended: `new_token(cid)` returns `Some` iff no in-flight entry
for cid exists; when an entry exists it returns `None`, but the insert-then-
check order of the code replaces the stored entry with the fresh sender (its
channel is `nextChan`) whose receiver half is dropped on return. -/
theorem c2_new_token_amended (s : TrackerState) (cid : Nat) :
    ((newToken s cid).1.isSome ↔ alookup s.inFlight cid = none) ∧
    (alookup s.inFlight cid ≠ none →
      (newToken s cid).1 = none ∧
      alookup (newToken s cid).2.inFlight cid = some s.nextChan ∧
      s.nextChan ∈ (newToken s cid).2.deadReceivers) := by
  constructor
  · cases h : alookup s.inFlight cid <;> simp [newToken, h]
  · intro hne
    cases h : alookup s.inFlight cid with
    | none => exact absurd h hne
    | some ch =>
      refine ⟨by simp [newToken, h], ?_, by simp [newToken, h]⟩
      simp [newToken, h, ainsertReplace, alookup]

/-- Claim C2 amended, witness at the concrete duplicate call of
`c2_new_token_replaces_entry`. -/
theorem c2_new_token_amended_witness :
    alookup (newToken (newToken initTracker 1).2 1).2.inFlight 1 = some 1 :=
  ((c2_new_token_amended (newToken initTracker 1).2 1).2 (by decide)).2.1

/-- Claim C5: `handle_message(env)` with a matching in-flight entry removes the
entry and sends the envelope through that entry's sender (the value reaches
the channel when its receiver is alive), returning `None`; with no matching
entry the envelope itself is returned and the tracker is untouched. -/
theorem c5_handle_message_delivery (s : TrackerState) (cid msg ch : Nat) :
    (alookup s.inFlight cid = some ch →
      (handleMessage s cid msg).1 = none ∧
      alookup (handleMessage s cid msg).2.inFlight cid = none ∧
      (ch ∉ s.deadReceivers → (ch, msg) ∈ (handleMessage s cid msg).2.delivered)) ∧
    (alookup s.inFlight cid = none →
      (handleMessage s cid msg).1 = some (cid, msg) ∧
      (handleMessage s cid msg).2 = s) := by
  constructor
  · intro h
    refine ⟨?_, ?_, ?_⟩
    · by_cases hd : ch ∈ s.deadReceivers <;> simp [handleMessage, h, hd]
    · by_cases hd : ch ∈ s.deadReceivers <;>
        simp [handleMessage, h, hd, alookup_remove_self]
    · intro hd
      simp [handleMessage, h, hd]
  · intro h
    simp [handleMessage, h]

/-- Claim C5, witness: a tracker holding one live entry (cid 1, channel 0)
delivers an envelope for cid 1 and bounces an envelope for cid 2. -/
theorem c5_handle_message_delivery_witness :
    (handleMessage ⟨[(1, 0)], [], [], 1⟩ 1 7).1 = none ∧
    (handleMessage ⟨[(1, 0)], [], [], 1⟩ 2 7).1 = some (2, 7) := by
  constructor
  · exact ((c5_handle_message_delivery ⟨[(1, 0)], [], [], 1⟩ 1 7 0).1 (by decide)).1
  · exact ((c5_handle_message_delivery ⟨[(1, 0)], [], [], 1⟩ 2 7 0).2 (by decide)).1

/-- Claim C10: when the matching in-flight entry has a dead receiver half,
`handle_message` still removes the entry and returns `None`; nothing is
delivered (the channel set of delivered values is unchanged) and nothing is
handed back, so the message disappears silently. -/
theorem c10_dead_receiver_discard (s : TrackerState) (cid msg ch : Nat)
    (hl : alookup s.inFlight cid = some ch) (hd : ch ∈ s.deadReceivers) :
    (handleMessage s cid msg).1 = none ∧
    alookup (handleMessage s cid msg).2.inFlight cid = none ∧
    (handleMessage s cid msg).2.delivered = s.delivered := by
  refine ⟨?_, ?_, ?_⟩ <;> simp [handleMessage, hl, hd, alookup_remove_self]

/-- Claim C10, witness: the state produced by a duplicate `new_token` call has
an entry whose receiver is dead; an envelope for it is silently dropped. -/
theorem c10_dead_receiver_discard_witness :
    (handleMessage ⟨[(1, 1)], [1], [], 2⟩ 1 9).1 = none ∧
    (handleMessage ⟨[(1, 1)], [1], [], 2⟩ 1 9).2.delivered = [] := by
  have h := c10_dead_receiver_discard ⟨[(1, 1)], [1], [], 2⟩ 1 9 1
    (by decide) (by decide)
  exact ⟨h.1, h.2.2⟩

/-! ### Token lifecycle traces (claim C6)

A trace interleaves successful token creations, token drops and matched
deliveries followed by a successful `recv`.  `execSteps` runs a trace from the
fresh tracker, together with the list of outstanding (not yet dropped or
received) tokens; a step whose precondition fails rejects the whole trace. -/

inductive RpcStep where
  | create (cid : Nat)
  | dropTok (cid : Nat)
  | deliverRecv (cid msg : Nat)
deriving Repr, DecidableEq

def findTok (cid : Nat) : List RpcToken → Option RpcToken
  | [] => none
  | t :: rest => if t.correlationId = cid then some t else findTok cid rest

def removeTok (cid : Nat) : List RpcToken → List RpcToken
  | [] => []
  | t :: rest => if t.correlationId = cid then rest else t :: removeTok cid rest

def exec1 (c : TrackerState × List RpcToken) (st : RpcStep) :
    Option (TrackerState × List RpcToken) :=
  match st with
  | .create cid =>
    match newToken c.1 cid with
    | (some t, s1) => some (s1, t :: c.2)
    | (none, _) => none
  | .dropTok cid =>
    match findTok cid c.2 with
    | some t => some (dropToken c.1 t, removeTok cid c.2)
    | none => none
  | .deliverRecv cid msg =>
    match findTok cid c.2 with
    | some t =>
      if alookup c.1.inFlight cid = some t.chan then
        some ((recvToken (handleMessage c.1 cid msg).2 t).2, removeTok cid c.2)
      else none
    | none => none

def execFrom (c : TrackerState × List RpcToken) :
    List RpcStep → Option (TrackerState × List RpcToken)
  | [] => some c
  | st :: rest =>
    match exec1 c st with
    | some c1 => execFrom c1 rest
    | none => none

def execSteps (steps : List RpcStep) : Option (TrackerState × List RpcToken) :=
  execFrom (initTracker, []) steps

/-- The in-flight keys are exactly the correlation ids of the outstanding
tokens (as a multiset), and they are distinct. -/
def TrackerInv (c : TrackerState × List RpcToken) : Prop :=
  (c.1.inFlight.map Prod.fst).Nodup ∧
  (c.1.inFlight.map Prod.fst).Perm (c.2.map RpcToken.correlationId)

theorem findTok_eq (cid : Nat) (out : List RpcToken) (t : RpcToken)
    (h : findTok cid out = some t) : t ∈ out ∧ t.correlationId = cid := by
  induction out with
  | nil => simp [findTok] at h
  | cons u rest ih =>
    by_cases hu : u.correlationId = cid
    · simp [findTok, hu] at h
      subst h
      exact ⟨List.mem_cons_self u rest, hu⟩
    · simp [findTok, hu] at h
      obtain ⟨hm, hc⟩ := ih h
      exact ⟨List.mem_cons_of_mem _ hm, hc⟩

theorem perm_removeTok (cid : Nat) (out : List RpcToken) (t : RpcToken)
    (h : findTok cid out = some t) :
    (out.map RpcToken.correlationId).Perm
      (cid :: (removeTok cid out).map RpcToken.correlationId) := by
  induction out with
  | nil => simp [findTok] at h
  | cons u rest ih =>
    by_cases hu : u.correlationId = cid
    · simp [removeTok, hu]
    · simp [findTok, hu] at h
      have hperm := ih h
      simp only [removeTok, hu, if_neg, List.map_cons]
      exact (hperm.cons u.correlationId).trans
        (List.Perm.swap cid u.correlationId _)

theorem aremove_sublist {β : Type} (m : List (Nat × β)) (k : Nat) :
    (aremove m k).Sublist m := by
  induction m with
  | nil => simp [aremove]
  | cons e rest ih =>
    cases e with
    | mk a v =>
      by_cases h : a = k
      · simpa [aremove, h] using ih.cons (a, v)
      · simpa [aremove, h] using ih.cons₂ (a, v)

theorem keys_perm_remove {β : Type} (m : List (Nat × β)) (cid : Nat)
    (hnd : (m.map Prod.fst).Nodup) (h : (alookup m cid).isSome) :
    (m.map Prod.fst).Perm (cid :: (aremove m cid).map Prod.fst) := by
  induction m with
  | nil => simp [alookup] at h
  | cons e rest ih =>
    cases e with
    | mk a v =>
      by_cases ha : a = cid
      · subst ha
        have hnotmem : a ∉ rest.map Prod.fst := (List.nodup_cons.mp hnd).1
        have hlook : alookup rest a = none := by
          cases hl : alookup rest a with
          | none => rfl
          | some w =>
            exact absurd (List.mem_map.mpr ⟨(a, w), alookup_mem rest a w hl, rfl⟩)
              hnotmem
        simp [aremove, aremove_of_lookup_none rest a hlook]
      · have hnd2 : (rest.map Prod.fst).Nodup := (List.nodup_cons.mp hnd).2
        have h2 : (alookup rest cid).isSome := by simpa [alookup, ha] using h
        have hperm := ih hnd2 h2
        simp only [aremove, ha, if_neg, List.map_cons]
        exact (hperm.cons a).trans (List.Perm.swap cid a _)

theorem handleMessage_inFlight (s : TrackerState) (cid msg ch : Nat)
    (h : alookup s.inFlight cid = some ch) :
    ((handleMessage s cid msg).2).inFlight = aremove s.inFlight cid := by
  by_cases hd : ch ∈ s.deadReceivers <;> simp [handleMessage, h, hd]

theorem nodup_keys_remove {β : Type} (m : List (Nat × β)) (k : Nat)
    (hnd : (m.map Prod.fst).Nodup) : ((aremove m k).map Prod.fst).Nodup :=
  List.Nodup.sublist ((aremove_sublist m k).map Prod.fst) hnd

theorem exec1_inv (c c' : TrackerState × List RpcToken) (st : RpcStep)
    (hinv : TrackerInv c) (hstep : exec1 c st = some c') : TrackerInv c' := by
  obtain ⟨hnd, hperm⟩ := hinv
  cases st with
  | create cid =>
    cases hl : alookup c.1.inFlight cid with
    | some ch => simp [exec1, newToken, hl] at hstep
    | none =>
      simp [exec1, newToken, hl] at hstep
      subst hstep
      have hnotmem : cid ∉ c.1.inFlight.map Prod.fst := by
        intro hmem
        have hs := alookup_isSome_of_mem_keys _ _ hmem
        rw [hl] at hs
        simp at hs
      constructor
      · simpa [ainsertReplace, aremove_of_lookup_none _ _ hl, hnotmem] using hnd
      · simpa [ainsertReplace, aremove_of_lookup_none _ _ hl] using hperm.cons cid
  | dropTok cid =>
    cases hf : findTok cid c.2 with
    | none => simp [exec1, hf] at hstep
    | some t =>
      simp [exec1, hf] at hstep
      subst hstep
      obtain ⟨htmem, htcid⟩ := findTok_eq cid c.2 t hf
      have hcidmem : cid ∈ c.2.map RpcToken.correlationId :=
        List.mem_map.mpr ⟨t, htmem, htcid⟩
      have hsome := alookup_isSome_of_mem_keys _ _ (hperm.mem_iff.mpr hcidmem)
      have hkperm := keys_perm_remove c.1.inFlight cid hnd hsome
      have houtperm := perm_removeTok cid c.2 t hf
      constructor
      · simpa [dropToken, htcid] using nodup_keys_remove c.1.inFlight cid hnd
      · simpa [dropToken, htcid] using
          ((hkperm.symm.trans hperm).trans houtperm).cons_inv
  | deliverRecv cid msg =>
    cases hf : findTok cid c.2 with
    | none => simp [exec1, hf] at hstep
    | some t =>
      by_cases hq : alookup c.1.inFlight cid = some t.chan
      · simp [exec1, hf, hq] at hstep
        subst hstep
        have hsome : (alookup c.1.inFlight cid).isSome := by simp [hq]
        have hkperm := keys_perm_remove c.1.inFlight cid hnd hsome
        have houtperm := perm_removeTok cid c.2 t hf
        constructor
        · simpa [recvToken, handleMessage_inFlight c.1 cid msg t.chan hq] using
            nodup_keys_remove c.1.inFlight cid hnd
        · simpa [recvToken, handleMessage_inFlight c.1 cid msg t.chan hq] using
            ((hkperm.symm.trans hperm).trans houtperm).cons_inv
      · simp [exec1, hf, hq] at hstep

theorem execFrom_inv (steps : List RpcStep) :
    ∀ (c c' : TrackerState × List RpcToken),
      TrackerInv c → execFrom c steps = some c' → TrackerInv c' := by
  induction steps with
  | nil =>
    intro c c' hinv h
    simp [execFrom] at h
    rwa [← h]
  | cons st rest ih =>
    intro c c' hinv h
    cases hs : exec1 c st with
    | none => simp [execFrom, hs] at h
    | some c1 => exact ih c1 c' (exec1_inv c c1 st hinv hs) (by simpa [execFrom, hs] using h)

/-- Claim C6: dropping an `RpcToken` removes the tracker entry for its
correlation id, and every trace of token creations in which each created token
is eventually dropped or successfully received (no token outstanding at the
end) leaves `num_in_flight() = 0`: no sender is ever left behind. -/
theorem c6_token_lifecycle :
    (∀ (s : TrackerState) (t : RpcToken),
      alookup (dropToken s t).inFlight t.correlationId = none) ∧
    (∀ (steps : List RpcStep) (s : TrackerState),
      execSteps steps = some (s, []) → numInFlight s = 0) := by
  constructor
  · intro s t
    exact alookup_remove_self s.inFlight t.correlationId
  · intro steps s h
    have hinv : TrackerInv (initTracker, []) := by
      constructor <;> simp [initTracker]
    have hfin := execFrom_inv steps (initTracker, []) (s, []) hinv h
    have hlen := hfin.2.length_eq
    simp at hlen
    simpa [numInFlight] using hlen

/-- Claim C6, witness: the four-step trace create 1, create 2, drop 1,
deliver-and-receive 2 ends with no outstanding token and an empty in-flight
map. -/
theorem c6_token_lifecycle_witness :
    numInFlight ⟨[], [1, 0], [(1, 5)], 2⟩ = 0 :=
  c6_token_lifecycle.2
    [RpcStep.create 1, RpcStep.create 2, RpcStep.dropTok 1, RpcStep.deliverRecv 2 5]
    ⟨[], [1, 0], [(1, 5)], 2⟩ (by decide)

/-! ### Bifrost core

Shallow embedding of `BifrostInner` from `src/crates/bifrost/src/bifrost.rs`.
LSNs, log ids and payload bytes are `Nat`; `LsnMAX` is the u64 maximum used by
`trim(log, Lsn::MAX)`.  The loglet behind each segment is modelled at the
`LogletWrapper` interface level (global LSNs).  The per-loglet operations are
not under the sampled sources, so they are modelled from the spec, section
4.3 (local persistent loglet): `find_tail` returns the release pointer when it
is past the trim point, `get_trim_point` returns the trim point when nonzero,
and `trim` advances the trim point to `min(T, release_pointer)`, never
backwards.  The provider registry is modelled as published (the watchdog has
started every provider). -/

def LsnMAX : Nat := 2 ^ 64 - 1

/-- Modelled from the spec: the observable per-log state of a loglet at the
wrapper interface — release pointer, trim point (0 = unset), and the stored
records (offset to raw bytes). -/
structure LogletState where
  releasePointer : Nat
  trimPoint : Nat
  entries : List (Nat × List Nat)
deriving Repr, DecidableEq

/-- Modelled from the spec: `find_tail` returns `release_pointer` if it is
greater than `trim_point`, else `None`. -/
def logletFindTail (l : LogletState) : Option Nat :=
  if l.trimPoint < l.releasePointer then some l.releasePointer else none

/-- Modelled from the spec: `get_trim_point` returns `trim_point` if nonzero. -/
def logletGetTrimPoint (l : LogletState) : Option Nat :=
  if l.trimPoint = 0 then none else some l.trimPoint

/-- Modelled from the spec: `trim(T)` advances `trim_point` to
`min(T, release_pointer)` and never decreases it. -/
def logletTrim (l : LogletState) (t : Nat) : LogletState :=
  { l with trimPoint := max l.trimPoint (min t l.releasePointer) }

/-- Modelled from the spec: an append reserves the next offset
(`release_pointer + 1`), stores the raw bytes there, and returns only after
the release pointer has advanced past the record. -/
def logletAppend (l : LogletState) (buf : List Nat) : Nat × LogletState :=
  (l.releasePointer + 1,
   { l with releasePointer := l.releasePointer + 1,
            entries := (l.releasePointer + 1, buf) :: l.entries })

/-- Modelled from the spec: a batch append reserves the contiguous range
starting at `release_pointer + 1` and returns the first offset. -/
def logletAppendBatch (l : LogletState) (bufs : List (List Nat)) :
    Nat × LogletState :=
  (l.releasePointer + 1,
   { l with releasePointer := l.releasePointer + bufs.length,
            entries := List.enumFrom (l.releasePointer + 1) bufs ++ l.entries })

inductive RecordM where
  | data (bytes : List Nat)
  | trimGap (untilLsn : Nat)
deriving Repr, DecidableEq

structure LogRecordM where
  offset : Nat
  record : RecordM
deriving Repr, DecidableEq

/-- Modelled from the spec: the point read behind `read_next_single*`.  A
position at or below the trim point yields a `TrimGap` up to the trim point; a
durable position yields the stored bytes; past the release pointer nothing is
ready. -/
def logletReadNextOpt (l : LogletState) (after : Nat) : Option LogRecordM :=
  if after + 1 ≤ l.trimPoint then some ⟨after + 1, RecordM.trimGap l.trimPoint⟩
  else if after + 1 ≤ l.releasePointer then
    match alookup l.entries (after + 1) with
    | some bytes => some ⟨after + 1, RecordM.data bytes⟩
    | none => none
  else none

/-- One entry of a log chain: `base_lsn` plus the loglet serving the segment
(restate_types Segment, consumed read-only by Bifrost). -/
structure SegmentM where
  baseLsn : Nat
  loglet : LogletState
deriving Repr, DecidableEq

/-- Modelled from the spec: the tail segment is the segment with the greatest
`base_lsn`; chains are sorted by `base_lsn`, so it is the last element. -/
def tailSegment (chain : List SegmentM) : Option SegmentM :=
  chain.getLast?

/-- Modelled from the spec: the segment whose `base_lsn` brackets `lsn`
(successor has a larger `base_lsn`, or there is no successor). -/
def findSegmentForLsn : List SegmentM → Nat → Option SegmentM
  | [], _ => none
  | [seg], lsn => if seg.baseLsn ≤ lsn then some seg else none
  | seg :: next :: rest, lsn =>
    if seg.baseLsn ≤ lsn ∧ lsn < next.baseLsn then some seg
    else findSegmentForLsn (next :: rest) lsn

inductive BifrostError where
  | UnknownLogId (id : Nat)
  | Disabled (kind : Nat)
  | Shutdown
  | Panic
deriving Repr, DecidableEq

/-- `BifrostInner` observable state: the sticky shutdown flag and the logs
metadata snapshot (None when no logs metadata was ever observed). -/
structure BifrostState where
  shuttingDown : Bool
  logs : Option (List (Nat × List SegmentM))
deriving Repr, DecidableEq

/-- `BifrostInner::fail_if_shutting_down` (bifrost.rs lines 337-344). -/
def failIfShuttingDown (s : BifrostState) : Except BifrostError Unit :=
  if s.shuttingDown then Except.error BifrostError.Shutdown else Except.ok ()

def logsLookup (s : BifrostState) (log : Nat) : Option (List SegmentM) :=
  s.logs.bind (fun logs => alookup logs log)

/-- `BifrostInner::writeable_loglet` (bifrost.rs lines 370-377): the tail
segment of the chain, or `UnknownLogId`. -/
def writeableSegment (s : BifrostState) (log : Nat) :
    Except BifrostError SegmentM :=
  match (logsLookup s log).bind tailSegment with
  | none => Except.error (BifrostError.UnknownLogId log)
  | some seg => Except.ok seg

/-- `BifrostInner::find_loglet_for_lsn` (bifrost.rs lines 379-390). -/
def findLogletForLsn (s : BifrostState) (log lsn : Nat) :
    Except BifrostError SegmentM :=
  match (logsLookup s log).bind (fun chain => findSegmentForLsn chain lsn) with
  | none => Except.error (BifrostError.UnknownLogId log)
  | some seg => Except.ok seg

/-- Modelled from the spec: `StorageCodec::encode` is infallible by contract;
the encoded form is a header byte followed by the payload bytes. -/
def encodePayload (p : List Nat) : List Nat := 0 :: p

/-- Modelled from the spec: the fallible signature of `StorageCodec::encode`;
it always succeeds. -/
def encodeResult (p : List Nat) : Except Unit (List Nat) :=
  Except.ok (encodePayload p)

/-- Modelled from the spec: decoding checks the header and returns the
payload; it is total on the output of `encodePayload`. -/
def decodePayload : List Nat → Option (List Nat)
  | 0 :: rest => some rest
  | _ => none

/-- `LogRecord::decode`: data records decode their payload bytes, trim gaps
pass through. -/
def decodeRecord (r : LogRecordM) : Option LogRecordM :=
  match r.record with
  | RecordM.data bs => (decodePayload bs).map (fun p => ⟨r.offset, RecordM.data p⟩)
  | RecordM.trimGap u => some ⟨r.offset, RecordM.trimGap u⟩

/-- Replace the loglet of the last (tail) segment of a chain. -/
def updateLastLoglet : List SegmentM → LogletState → List SegmentM
  | [], _ => []
  | [seg], l => [{ seg with loglet := l }]
  | seg :: next :: rest, l => seg :: updateLastLoglet (next :: rest) l

def aupdate {α β : Type} [DecidableEq α] : List (α × β) → α → β → List (α × β)
  | [], _, _ => []
  | (a, w) :: rest, k, v =>
    if a = k then (a, v) :: rest else (a, w) :: aupdate rest k v

def chainsUpdateTail :
    List (Nat × List SegmentM) → Nat → LogletState → List (Nat × List SegmentM)
  | [], _, _ => []
  | (a, c) :: rest, k, l =>
    if a = k then (a, updateLastLoglet c l) :: rest
    else (a, c) :: chainsUpdateTail rest k l

def setChain (s : BifrostState) (log : Nat) (chain : List SegmentM) :
    BifrostState :=
  { s with logs := s.logs.map (fun logs => aupdate logs log chain) }

def setTailLoglet (s : BifrostState) (log : Nat) (l : LogletState) :
    BifrostState :=
  { s with logs := s.logs.map (fun logs => chainsUpdateTail logs log l) }

/-- `BifrostInner::append` (bifrost.rs lines 228-234): shutdown check, tail
segment lookup, infallible encode (the `expect` is modelled as `Panic`), then
the loglet append. -/
def append (s : BifrostState) (log : Nat) (p : List Nat) :
    Except BifrostError (Nat × BifrostState) :=
  match failIfShuttingDown s with
  | Except.error e => Except.error e
  | Except.ok _ =>
    match writeableSegment s log with
    | Except.error e => Except.error e
    | Except.ok seg =>
      match encodeResult p with
      | Except.error _ => Except.error BifrostError.Panic
      | Except.ok buf =>
        let r := logletAppend seg.loglet buf
        Except.ok (r.1, setTailLoglet s log r.2)

/-- `BifrostInner::append_batch` (bifrost.rs lines 236-248).  Note: unlike
every other entry point, the source does not call `fail_if_shutting_down`
first. -/
def appendBatch (s : BifrostState) (log : Nat) (ps : List (List Nat)) :
    Except BifrostError (Nat × BifrostState) :=
  match writeableSegment s log with
  | Except.error e => Except.error e
  | Except.ok seg =>
    match ps.mapM encodeResult with
    | Except.error _ => Except.error BifrostError.Panic
    | Except.ok bufs =>
      let r := logletAppendBatch seg.loglet bufs
      Except.ok (r.1, setTailLoglet s log r.2)

/-- `BifrostInner::read_next_single` (bifrost.rs lines 250-259): shutdown
check, segment lookup for `after + 1`, loglet read (an `Ok none` result stands
for the suspended wait for the next record), and the decode whose `expect` is
modelled as `Panic`. -/
def readNextSingle (s : BifrostState) (log after : Nat) :
    Except BifrostError (Option LogRecordM) :=
  match failIfShuttingDown s with
  | Except.error e => Except.error e
  | Except.ok _ =>
    match findLogletForLsn s log (after + 1) with
    | Except.error e => Except.error e
    | Except.ok seg =>
      match logletReadNextOpt seg.loglet after with
      | none => Except.ok none
      | some r =>
        match decodeRecord r with
        | some d => Except.ok (some d)
        | none => Except.error BifrostError.Panic

/-- `BifrostInner::read_next_single_opt` (bifrost.rs lines 261-274). -/
def readNextSingleOpt (s : BifrostState) (log after : Nat) :
    Except BifrostError (Option LogRecordM) :=
  match failIfShuttingDown s with
  | Except.error e => Except.error e
  | Except.ok _ =>
    match findLogletForLsn s log (after + 1) with
    | Except.error e => Except.error e
    | Except.ok seg =>
      match logletReadNextOpt seg.loglet after with
      | none => Except.ok none
      | some r =>
        match decodeRecord r with
        | some d => Except.ok (some d)
        | none => Except.error BifrostError.Panic

/-- `BifrostInner::find_tail` (bifrost.rs lines 276-285), projected to the
tail LSN as `Bifrost::find_tail` does. -/
def findTail (s : BifrostState) (log : Nat) :
    Except BifrostError (Option Nat) :=
  match failIfShuttingDown s with
  | Except.error e => Except.error e
  | Except.ok _ =>
    match writeableSegment s log with
    | Except.error e => Except.error e
    | Except.ok seg => Except.ok (logletFindTail seg.loglet)

/-- The loop body of `BifrostInner::get_trim_point` (bifrost.rs lines
293-307): `trim_point` is the accumulator, a segment without a trim point
stops the walk. -/
def chainTrimPointGo (acc : Option Nat) : List SegmentM → Option Nat
  | [] => acc
  | seg :: rest =>
    match logletGetTrimPoint seg.loglet with
    | none => acc
    | some tp => chainTrimPointGo (some tp) rest

def chainTrimPoint (chain : List SegmentM) : Option Nat :=
  chainTrimPointGo none chain

/-- `BifrostInner::get_trim_point` (bifrost.rs lines 287-310). -/
def getTrimPoint (s : BifrostState) (log : Nat) :
    Except BifrostError (Option Nat) :=
  match failIfShuttingDown s with
  | Except.error e => Except.error e
  | Except.ok _ =>
    match s.logs with
    | none => Except.error (BifrostError.UnknownLogId log)
    | some logs =>
      match alookup logs log with
      | none => Except.error (BifrostError.UnknownLogId log)
      | some chain => Except.ok (chainTrimPoint chain)

/-- The per-segment action of `BifrostInner::trim` (bifrost.rs lines
325-329): when the loglet has a tail, trim it to `min(tail, trim_point)`;
otherwise leave it alone. -/
def trimSeg (trimPt : Nat) (seg : SegmentM) : SegmentM :=
  match logletFindTail seg.loglet with
  | some tail => { seg with loglet := logletTrim seg.loglet (min tail trimPt) }
  | none => seg

/-- The loop of `BifrostInner::trim` (bifrost.rs lines 318-330): break at the
first segment whose `base_lsn` exceeds the trim point; otherwise apply
`trimSeg` and continue. -/
def trimChainGo (trimPt : Nat) : List SegmentM → List SegmentM
  | [] => []
  | seg :: rest =>
    if trimPt < seg.baseLsn then seg :: rest
    else trimSeg trimPt seg :: trimChainGo trimPt rest

/-- `BifrostInner::trim` (bifrost.rs lines 312-335). -/
def trim (s : BifrostState) (log trimPt : Nat) :
    Except BifrostError BifrostState :=
  match failIfShuttingDown s with
  | Except.error e => Except.error e
  | Except.ok _ =>
    match s.logs with
    | none => Except.error (BifrostError.UnknownLogId log)
    | some logs =>
      match alookup logs log with
      | none => Except.error (BifrostError.UnknownLogId log)
      | some chain => Except.ok (setChain s log (trimChainGo trimPt chain))

/-- `BifrostInner::sync_metadata` (bifrost.rs lines 347-354); the metadata
sync itself is modelled as succeeding. -/
def syncMetadata (s : BifrostState) : Except BifrostError Unit :=
  match failIfShuttingDown s with
  | Except.error e => Except.error e
  | Except.ok _ => Except.ok ()

/-- A one-segment log (log id 0, base LSN 1, empty loglet) with the shutdown
flag already set. -/
def shutdownDemo : BifrostState :=
  ⟨true, some [(0, [⟨1, ⟨0, 0, []⟩⟩])]⟩

/-- Claim C1: all entry points except `append_batch` check the shutdown flag
first and fail with `Shutdown` for every input; `append_batch` does not — on
the shutdown demo state it appends two records and succeeds, which is the
divergence between the code and both the claim and the `set_shutdown` doc
comment. -/
theorem c1_shutdown_fencing :
    (∀ (s : BifrostState) (log : Nat) (p : List Nat), s.shuttingDown = true →
      append s log p = Except.error BifrostError.Shutdown) ∧
    (∀ (s : BifrostState) (log after : Nat), s.shuttingDown = true →
      readNextSingle s log after = Except.error BifrostError.Shutdown) ∧
    (∀ (s : BifrostState) (log after : Nat), s.shuttingDown = true →
      readNextSingleOpt s log after = Except.error BifrostError.Shutdown) ∧
    (∀ (s : BifrostState) (log : Nat), s.shuttingDown = true →
      findTail s log = Except.error BifrostError.Shutdown) ∧
    (∀ (s : BifrostState) (log : Nat), s.shuttingDown = true →
      getTrimPoint s log = Except.error BifrostError.Shutdown) ∧
    (∀ (s : BifrostState) (log trimPt : Nat), s.shuttingDown = true →
      trim s log trimPt = Except.error BifrostError.Shutdown) ∧
    (∀ (s : BifrostState), s.shuttingDown = true →
      syncMetadata s = Except.error BifrostError.Shutdown) ∧
    appendBatch shutdownDemo 0 [[1], [2]] =
      Except.ok (1, ⟨true, some [(0, [⟨1, ⟨2, 0, [(1, [0, 1]), (2, [0, 2])]⟩⟩])]⟩) := by
  refine ⟨?_, ?_, ?_, ?_, ?_, ?_, ?_, ?_⟩
  · intro s log p h
    simp [append, failIfShuttingDown, h]
  · intro s log after h
    simp [readNextSingle, failIfShuttingDown, h]
  · intro s log after h
    simp [readNextSingleOpt, failIfShuttingDown, h]
  · intro s log h
    simp [findTail, failIfShuttingDown, h]
  · intro s log h
    simp [getTrimPoint, failIfShuttingDown, h]
  · intro s log trimPt h
    simp [trim, failIfShuttingDown, h]
  · intro s h
    simp [syncMetadata, failIfShuttingDown, h]
  · rfl

/-- Claim C1, witness: the shutdown-checked entry points all reject on the
shutdown demo state. -/
theorem c1_shutdown_fencing_witness :
    append shutdownDemo 0 [3] = Except.error BifrostError.Shutdown ∧
    readNextSingle shutdownDemo 0 0 = Except.error BifrostError.Shutdown ∧
    readNextSingleOpt shutdownDemo 0 0 = Except.error BifrostError.Shutdown ∧
    findTail shutdownDemo 0 = Except.error BifrostError.Shutdown ∧
    getTrimPoint shutdownDemo 0 = Except.error BifrostError.Shutdown ∧
    trim shutdownDemo 0 5 = Except.error BifrostError.Shutdown ∧
    syncMetadata shutdownDemo = Except.error BifrostError.Shutdown :=
  ⟨c1_shutdown_fencing.1 shutdownDemo 0 [3] rfl,
   c1_shutdown_fencing.2.1 shutdownDemo 0 0 rfl,
   c1_shutdown_fencing.2.2.1 shutdownDemo 0 0 rfl,
   c1_shutdown_fencing.2.2.2.1 shutdownDemo 0 rfl,
   c1_shutdown_fencing.2.2.2.2.1 shutdownDemo 0 rfl,
   c1_shutdown_fencing.2.2.2.2.2.1 shutdownDemo 0 5 rfl,
   c1_shutdown_fencing.2.2.2.2.2.2.1 shutdownDemo rfl⟩

/-! ### Claim C7: codec on the append and read paths -/

def stateEntries (s : BifrostState) : List (Nat × List Nat) :=
  (s.logs.getD []).flatMap (fun e => e.2.flatMap (fun seg => seg.loglet.entries))

theorem findSegmentForLsn_mem :
    ∀ (chain : List SegmentM) (lsn : Nat) (seg : SegmentM),
      findSegmentForLsn chain lsn = some seg → seg ∈ chain
  | [], _, _, h => by simp [findSegmentForLsn] at h
  | [s0], lsn, seg, h => by
    by_cases hb : s0.baseLsn ≤ lsn
    · simp [findSegmentForLsn, hb] at h
      simp [h]
    · simp [findSegmentForLsn, hb] at h
  | s0 :: s1 :: rest, lsn, seg, h => by
    by_cases hb : s0.baseLsn ≤ lsn ∧ lsn < s1.baseLsn
    · simp [findSegmentForLsn, hb] at h
      simp [h]
    · simp [findSegmentForLsn, hb] at h
      exact List.mem_cons_of_mem _ (findSegmentForLsn_mem (s1 :: rest) lsn seg h)

theorem mem_stateEntries (s : BifrostState) (logs : List (Nat × List SegmentM))
    (log : Nat) (chain : List SegmentM) (seg : SegmentM) (e : Nat × List Nat)
    (hlogs : s.logs = some logs) (hchain : alookup logs log = some chain)
    (hseg : seg ∈ chain) (he : e ∈ seg.loglet.entries) : e ∈ stateEntries s := by
  unfold stateEntries
  rw [hlogs]
  simp only [Option.getD_some, List.mem_flatMap]
  exact ⟨(log, chain), alookup_mem _ _ _ hchain, seg, hseg, he⟩

theorem logletReadNextOpt_decodable (l : LogletState) (after : Nat)
    (r : LogRecordM) (hr : logletReadNextOpt l after = some r)
    (hwf : ∀ e ∈ l.entries, ∃ q, e.2 = encodePayload q) :
    (decodeRecord r).isSome := by
  unfold logletReadNextOpt at hr
  by_cases h1 : after + 1 ≤ l.trimPoint
  · simp [h1] at hr
    simp [← hr, decodeRecord]
  · simp [h1] at hr
    by_cases h2 : after + 1 ≤ l.releasePointer
    · simp [h2] at hr
      cases hl : alookup l.entries (after + 1) with
      | none => simp [hl] at hr
      | some bytes =>
        simp [hl] at hr
        obtain ⟨q, hq⟩ := hwf (after + 1, bytes) (alookup_mem _ _ _ hl)
        simp at hq
        simp [← hr, decodeRecord, hq, encodePayload, decodePayload]
    · simp [h2] at hr

/-- Claim C7: encoding on the append path always succeeds, decoding the
output of the codec always succeeds, `append` never reaches its encode panic
branch, and `read_next_single` never reaches its decode panic branch on a
state whose stored records were all written through the codec. -/
theorem c7_codec_infallible :
    (∀ p : List Nat, encodeResult p = Except.ok (encodePayload p)) ∧
    (∀ p : List Nat, decodePayload (encodePayload p) = some p) ∧
    (∀ (s : BifrostState) (log : Nat) (p : List Nat),
      append s log p ≠ Except.error BifrostError.Panic) ∧
    (∀ (s : BifrostState) (log after : Nat),
      (∀ e ∈ stateEntries s, ∃ q, e.2 = encodePayload q) →
      readNextSingle s log after ≠ Except.error BifrostError.Panic) := by
  refine ⟨fun p => rfl, fun p => rfl, ?_, ?_⟩
  · intro s log p
    by_cases hsd : s.shuttingDown
    · simp [append, failIfShuttingDown, hsd]
    · cases hw : (logsLookup s log).bind tailSegment with
      | none => simp [append, failIfShuttingDown, hsd, writeableSegment, hw]
      | some seg =>
        simp [append, failIfShuttingDown, hsd, writeableSegment, hw, encodeResult]
  · intro s log after hwf
    by_cases hsd : s.shuttingDown
    · simp [readNextSingle, failIfShuttingDown, hsd]
    · cases hw : (logsLookup s log).bind
          (fun chain => findSegmentForLsn chain (after + 1)) with
      | none => simp [readNextSingle, failIfShuttingDown, hsd, findLogletForLsn, hw]
      | some seg =>
        obtain ⟨chain, hch, hfs⟩ := Option.bind_eq_some.mp hw
        obtain ⟨logs, hlogs, hcl⟩ := Option.bind_eq_some.mp hch
        have hsegmem := findSegmentForLsn_mem chain (after + 1) seg hfs
        cases hr : logletReadNextOpt seg.loglet after with
        | none =>
          simp [readNextSingle, failIfShuttingDown, hsd, findLogletForLsn, hw, hr]
        | some r =>
          have hwfseg : ∀ e ∈ seg.loglet.entries, ∃ q, e.2 = encodePayload q :=
            fun e he => hwf e (mem_stateEntries s logs log chain seg e hlogs hcl hsegmem he)
          have hdec := logletReadNextOpt_decodable seg.loglet after r hr hwfseg
          cases hd : decodeRecord r with
          | none => rw [hd] at hdec; simp at hdec
          | some d =>
            simp [readNextSingle, failIfShuttingDown, hsd, findLogletForLsn, hw, hr, hd]

/-- Claim C7, witness: a state holding one record written through the codec
is read back without reaching the panic branch. -/
theorem c7_codec_infallible_witness :
    readNextSingle ⟨false, some [(0, [⟨1, ⟨1, 0, [(1, encodePayload [7])]⟩⟩])]⟩ 0 0
      ≠ Except.error BifrostError.Panic :=
  c7_codec_infallible.2.2.2 ⟨false, some [(0, [⟨1, ⟨1, 0, [(1, encodePayload [7])]⟩⟩])]⟩ 0 0
    (by intro e he; simp [stateEntries] at he; exact ⟨[7], by simp [he]⟩)

/-! ### Claims C3 and C4: the trim walk and the trim-point walk -/

theorem alookup_aupdate {β : Type} (m : List (Nat × β)) (k : Nat) (v : β)
    (h : (alookup m k).isSome) : alookup (aupdate m k v) k = some v := by
  induction m with
  | nil => simp [alookup] at h
  | cons e rest ih =>
    cases e with
    | mk a w =>
      by_cases ha : a = k
      · subst ha
        simp [aupdate, alookup]
      · simp only [alookup, ha, if_neg] at h
        simp [aupdate, alookup, ha, ih h]

theorem logsLookup_setChain (s : BifrostState) (log : Nat)
    (chain c2 : List SegmentM) (h : logsLookup s log = some chain) :
    logsLookup (setChain s log c2) log = some c2 := by
  obtain ⟨logs, hlogs, hcl⟩ := Option.bind_eq_some.mp h
  simp [logsLookup, setChain, hlogs]
  exact alookup_aupdate logs log c2 (by simp [hcl])

theorem trimChainGo_getElem (T : Nat) :
    ∀ (chain : List SegmentM),
      chain.Pairwise (fun a b => a.baseLsn < b.baseLsn) →
      ∀ i : Nat, (trimChainGo T chain)[i]? =
        (chain[i]?).map (fun seg => if seg.baseLsn ≤ T then trimSeg T seg else seg)
  | [], _, i => by simp [trimChainGo]
  | seg :: rest, hp, i => by
    by_cases hb : T < seg.baseLsn
    · have hall : ∀ u ∈ seg :: rest, T < u.baseLsn := by
        intro u hu
        rcases List.mem_cons.mp hu with h | h
        · exact h ▸ hb
        · exact lt_trans hb ((List.pairwise_cons.mp hp).1 u h)
      rw [trimChainGo, if_pos hb]
      cases hi : (seg :: rest)[i]? with
      | none => simp
      | some u =>
        have hu := hall u (List.getElem?_mem hi)
        simp [not_le.mpr hu]
    · have hb2 : seg.baseLsn ≤ T := not_lt.mp hb
      cases i with
      | zero => simp [trimChainGo, if_neg hb, hb2]
      | succ n =>
        have ih := trimChainGo_getElem T rest (List.pairwise_cons.mp hp).2 n
        simpa [trimChainGo, if_neg hb] using ih

theorem chainTrimPointGo_trimMax :
    ∀ (chain : List SegmentM) (acc : Option Nat),
      (∀ seg ∈ chain, seg.baseLsn ≤ LsnMAX ∧
        seg.loglet.trimPoint < seg.loglet.releasePointer ∧
        seg.loglet.releasePointer ≤ LsnMAX) →
      chainTrimPointGo acc (trimChainGo LsnMAX chain) =
        match chain.getLast? with
        | some seg => some seg.loglet.releasePointer
        | none => acc
  | [], acc, _ => rfl
  | seg :: rest, acc, h => by
    obtain ⟨hbase, htr, hrel⟩ := h seg (List.mem_cons_self _ _)
    have hft : logletFindTail seg.loglet = some seg.loglet.releasePointer := by
      simp [logletFindTail, htr]
    have hrelpos : seg.loglet.releasePointer ≠ 0 := by omega
    have ih := chainTrimPointGo_trimMax rest (some seg.loglet.releasePointer)
      (fun u hu => h u (List.mem_cons_of_mem _ hu))
    have htrim : trimSeg LsnMAX seg =
        { seg with loglet := { seg.loglet with
            trimPoint := seg.loglet.releasePointer } } := by
      simp [trimSeg, hft, logletTrim, min_eq_left hrel, max_eq_right htr.le]
    rw [trimChainGo, if_neg (not_lt.mpr hbase), htrim, chainTrimPointGo]
    simp only [logletGetTrimPoint]
    simp only [hrelpos, if_false, ite_false]
    rw [ih]
    cases rest with
    | nil => rfl
    | cons a l =>
      cases hgl : (a :: l).getLast? with
      | none => simp at hgl
      | some u => simp [hgl]

/-- Claim C3: with a known chain (sorted by `base_lsn`), `trim(log, T)` walks
the chain, applying `trimSeg T` (trim to `min(segment tail, T)`) exactly to
the segments whose `base_lsn ≤ T`, leaving the rest untouched; after trimming
with `T = Lsn::MAX`, the `get_trim_point` walk over the new state returns the
pre-trim `find_tail` value of the tail segment. -/
theorem c3_trim_walk (s : BifrostState) (log T : Nat) (chain : List SegmentM)
    (h1 : s.shuttingDown = false) (h2 : logsLookup s log = some chain)
    (hsorted : chain.Pairwise (fun a b => a.baseLsn < b.baseLsn)) :
    trim s log T = Except.ok (setChain s log (trimChainGo T chain)) ∧
    (∀ i : Nat, (trimChainGo T chain)[i]? =
      (chain[i]?).map (fun seg => if seg.baseLsn ≤ T then trimSeg T seg else seg)) ∧
    getTrimPoint (setChain s log (trimChainGo T chain)) log =
      Except.ok (chainTrimPoint (trimChainGo T chain)) ∧
    ((∀ seg ∈ chain, seg.baseLsn ≤ LsnMAX ∧
        seg.loglet.trimPoint < seg.loglet.releasePointer ∧
        seg.loglet.releasePointer ≤ LsnMAX) →
      chainTrimPoint (trimChainGo LsnMAX chain) =
        (tailSegment chain).bind (fun seg => logletFindTail seg.loglet)) := by
  obtain ⟨logs, hlogs, hcl⟩ := Option.bind_eq_some.mp h2
  refine ⟨?_, trimChainGo_getElem T chain hsorted, ?_, ?_⟩
  · simp [trim, failIfShuttingDown, h1, hlogs, hcl]
  · have hupd : alookup (aupdate logs log (trimChainGo T chain)) log
        = some (trimChainGo T chain) :=
      alookup_aupdate logs log _ (by simp [hcl])
    simp [getTrimPoint, failIfShuttingDown, setChain, h1, hlogs, hupd]
  · intro hall
    rw [chainTrimPoint, chainTrimPointGo_trimMax chain none hall]
    cases hlast : chain.getLast? with
    | none => simp [tailSegment, hlast]
    | some seg =>
      have hmem : seg ∈ chain := List.mem_of_getLast?_eq_some hlast
      obtain ⟨hbase, htr, hrel⟩ := hall seg hmem
      simp [tailSegment, hlast, logletFindTail, htr]

/-- A sorted two-segment chain whose loglets both have a tail, for the C3
witness. -/
def demoTrimChain : List SegmentM := [⟨1, ⟨5, 2, []⟩⟩, ⟨6, ⟨9, 7, []⟩⟩]

def demoTrimState : BifrostState := ⟨false, some [(0, demoTrimChain)]⟩

/-- Claim C3, witness on the two-segment demo chain with trim point 3 and
with the `Lsn::MAX` clamp. -/
theorem c3_trim_walk_witness :
    trim demoTrimState 0 3 =
      Except.ok (setChain demoTrimState 0 (trimChainGo 3 demoTrimChain)) ∧
    chainTrimPoint (trimChainGo LsnMAX demoTrimChain) =
      (tailSegment demoTrimChain).bind (fun seg => logletFindTail seg.loglet) :=
  ⟨(c3_trim_walk demoTrimState 0 3 demoTrimChain rfl rfl (by decide)).1,
   (c3_trim_walk demoTrimState 0 3 demoTrimChain rfl rfl (by decide)).2.2.2
     (by decide)⟩

theorem chainTrimPointGo_takeWhile :
    ∀ (chain : List SegmentM) (acc : Option Nat),
      chainTrimPointGo acc chain =
        match (chain.takeWhile
            (fun seg => (logletGetTrimPoint seg.loglet).isSome)).getLast? with
        | some seg => logletGetTrimPoint seg.loglet
        | none => acc
  | [], acc => rfl
  | seg :: rest, acc => by
    cases hg : logletGetTrimPoint seg.loglet with
    | none => simp [chainTrimPointGo, hg, List.takeWhile_cons]
    | some tp =>
      have ih := chainTrimPointGo_takeWhile rest (some tp)
      rw [chainTrimPointGo]
      simp only [hg]
      rw [ih]
      simp only [List.takeWhile_cons, hg, Option.isSome_some, if_true]
      cases htw : rest.takeWhile
          (fun seg => (logletGetTrimPoint seg.loglet).isSome) with
      | nil => simp [hg]
      | cons a l =>
        simp only [List.getLast?_cons_cons]
        cases hgl : (a :: l).getLast? with
        | none => simp at hgl
        | some u => simp [hgl]

/-- Claim C4: with a known chain, `get_trim_point` returns the result of the
head-to-tail walk, and that walk returns the trim point of the last segment of
the longest prefix of segments whose trim point is set — the walk stops at the
first segment without one, and yields `None` when already the first segment
has none. -/
theorem c4_get_trim_point_walk (s : BifrostState) (log : Nat)
    (chain : List SegmentM) (h1 : s.shuttingDown = false)
    (h2 : logsLookup s log = some chain) :
    getTrimPoint s log = Except.ok (chainTrimPoint chain) ∧
    chainTrimPoint chain =
      match (chain.takeWhile
          (fun seg => (logletGetTrimPoint seg.loglet).isSome)).getLast? with
      | some seg => logletGetTrimPoint seg.loglet
      | none => none := by
  constructor
  · obtain ⟨logs, hlogs, hcl⟩ := Option.bind_eq_some.mp h2
    simp [getTrimPoint, failIfShuttingDown, h1, hlogs, hcl]
  · exact chainTrimPointGo_takeWhile chain none

/-- A three-segment chain whose middle segment has no trim point, for the C4
witness. -/
def demoC4Chain : List SegmentM :=
  [⟨1, ⟨5, 2, []⟩⟩, ⟨6, ⟨9, 0, []⟩⟩, ⟨10, ⟨12, 11, []⟩⟩]

def demoC4State : BifrostState := ⟨false, some [(0, demoC4Chain)]⟩

/-- Claim C4, witness: on the demo chain the walk stops at the middle segment
and returns the first segment's trim point, ignoring the third segment. -/
theorem c4_get_trim_point_walk_witness :
    getTrimPoint demoC4State 0 = Except.ok (some 2) := by
  rw [(c4_get_trim_point_walk demoC4State 0 demoC4Chain rfl rfl).1]
  rfl

/-! ### Claim C8: lazy loglet materialization in the local provider

Shallow embedding of `LocalLogletProvider::get_loglet` from
`src/crates/bifrost/src/loglets/local_loglet/provider.rs`.  Loglet instances
are named by the creation counter `nextLogletId`, so two calls return the same
instance iff they return the same number. -/

structure ProviderState where
  activeLoglets : List (String × Nat)
  nextLogletId : Nat
deriving Repr, DecidableEq

/-- `LocalLogletProvider::get_loglet` (provider.rs lines 82-112): under the
`active_loglets` mutex, a vacant entry creates a loglet and caches it; an
occupied entry is cloned and returned without creating anything. -/
def getLoglet (s : ProviderState) (params : String) : Nat × ProviderState :=
  match alookup s.activeLoglets params with
  | some l => (l, s)
  | none =>
    (s.nextLogletId,
     { activeLoglets := (params, s.nextLogletId) :: s.activeLoglets,
       nextLogletId := s.nextLogletId + 1 })

/-- Claim C8: the first `get_loglet` call for a parameters value creates the
loglet and caches it; any call that finds a cached entry returns that same
instance with the provider state unchanged; hence calling again right after
any call returns the same instance without creating a new one. -/
theorem c8_get_loglet_cached (s : ProviderState) (params : String) :
    (alookup s.activeLoglets params = none →
      getLoglet s params =
        (s.nextLogletId,
         ⟨(params, s.nextLogletId) :: s.activeLoglets, s.nextLogletId + 1⟩) ∧
      alookup (getLoglet s params).2.activeLoglets params = some s.nextLogletId) ∧
    (∀ l, alookup s.activeLoglets params = some l →
      getLoglet s params = (l, s)) ∧
    getLoglet (getLoglet s params).2 params =
      ((getLoglet s params).1, (getLoglet s params).2) := by
  refine ⟨?_, ?_, ?_⟩
  · intro h
    constructor
    · simp [getLoglet, h]
    · simp [getLoglet, h, alookup]
  · intro l h
    simp [getLoglet, h]
  · cases h : alookup s.activeLoglets params with
    | some l => simp [getLoglet, h]
    | none => simp [getLoglet, h, alookup]

/-- Claim C8, witness: materialize loglet params 11 on a fresh provider, then
ask again and get the cached instance back unchanged. -/
theorem c8_get_loglet_cached_witness :
    getLoglet ⟨[], 0⟩ "11" = (0, ⟨[("11", 0)], 1⟩) ∧
    getLoglet ⟨[("11", 0)], 1⟩ "11" = (0, ⟨[("11", 0)], 1⟩) :=
  ⟨((c8_get_loglet_cached ⟨[], 0⟩ "11").1 rfl).1,
   (c8_get_loglet_cached ⟨[("11", 0)], 1⟩ "11").2.1 0 rfl⟩

/-! ### Claim C9: storage background task metrics

Shallow embedding of `ReadyStorageTask` from
`src/crates/rocksdb/src/background.rs`.  A run is modelled by the list of
metric events it emits, each carrying its label set as key-value pairs. -/

inductive StorageTaskKind where
  | writeBatch
  | openColumnFamily
  | flushWal
  | shutdown
  | openDb
deriving Repr, DecidableEq

/-- The strum kebab-case serialization of `StorageTaskKind`
(background.rs lines 22-30). -/
def kindStr : StorageTaskKind → String
  | StorageTaskKind.writeBatch => "write-batch"
  | StorageTaskKind.openColumnFamily => "open-column-family"
  | StorageTaskKind.flushWal => "flush-wal"
  | StorageTaskKind.shutdown => "shutdown"
  | StorageTaskKind.openDb => "open-db"

inductive MetricName where
  | inFlight
  | waitDuration
  | runDuration
  | totalDuration
deriving Repr, DecidableEq

inductive MetricEvent where
  | gaugeIncrement (name : MetricName) (labels : List (String × String))
  | gaugeDecrement (name : MetricName) (labels : List (String × String))
  | histogramRecord (name : MetricName) (labels : List (String × String))
deriving Repr, DecidableEq

structure ReadyStorageTask where
  dbName : String
  owner : String
  priority : String
  kind : StorageTaskKind
deriving Repr, DecidableEq

/-- The label set of the three histograms in `run` (background.rs lines
89-111). -/
def histLabels (t : ReadyStorageTask) : List (String × String) :=
  [("kind", kindStr t.kind), ("db", t.dbName), ("owner", t.owner),
   ("priority", t.priority)]

/-- The label set of the in-flight gauge (background.rs lines 58-62, 71-75,
112-117): db, priority and kind only. -/
def gaugeLabels (t : ReadyStorageTask) : List (String × String) :=
  [("db", t.dbName), ("priority", t.priority), ("kind", kindStr t.kind)]

/-- `ReadyStorageTask::run` (background.rs lines 84-119): wait, run and total
duration histograms, then the in-flight gauge decrement. -/
def runEvents (t : ReadyStorageTask) : List MetricEvent :=
  [MetricEvent.histogramRecord MetricName.waitDuration (histLabels t),
   MetricEvent.histogramRecord MetricName.runDuration (histLabels t),
   MetricEvent.histogramRecord MetricName.totalDuration (histLabels t),
   MetricEvent.gaugeDecrement MetricName.inFlight (gaugeLabels t)]

/-- `into_runner` and `into_async_runner` (background.rs lines 55-82): the
in-flight gauge increment emitted before the task body runs. -/
def intoRunnerEvents (t : ReadyStorageTask) : List MetricEvent :=
  [MetricEvent.gaugeIncrement MetricName.inFlight (gaugeLabels t)]

def labelKeys : MetricEvent → List String
  | MetricEvent.gaugeIncrement _ ls => ls.map Prod.fst
  | MetricEvent.gaugeDecrement _ ls => ls.map Prod.fst
  | MetricEvent.histogramRecord _ ls => ls.map Prod.fst

def demoTask : ReadyStorageTask :=
  ⟨"local-loglet", "bifrost", "high", StorageTaskKind.writeBatch⟩

/-- Claim C9, counterexample: on a concrete write-batch task, not every metric
event of a run carries the owner label — the in-flight gauge events carry only
db, priority and kind. -/
theorem c9_gauge_missing_owner :
    ¬ (∀ e ∈ runEvents demoTask, "owner" ∈ labelKeys e) := by
  decide

/-- Claim C9, amended: every storage background task run reports exactly the
wait, run and total duration histograms followed by the in-flight gauge
decrement (the matching increment is emitted by `into_runner`); the histograms
carry all four labels kind, db, owner, priority, while the in-flight gauge
carries only db, priority and kind; the kind label takes values only in
write-batch, open-column-family, flush-wal, shutdown, open-db. -/
theorem c9_metrics_amended (t : ReadyStorageTask) :
    runEvents t =
      [MetricEvent.histogramRecord MetricName.waitDuration (histLabels t),
       MetricEvent.histogramRecord MetricName.runDuration (histLabels t),
       MetricEvent.histogramRecord MetricName.totalDuration (histLabels t),
       MetricEvent.gaugeDecrement MetricName.inFlight (gaugeLabels t)] ∧
    intoRunnerEvents t =
      [MetricEvent.gaugeIncrement MetricName.inFlight (gaugeLabels t)] ∧
    (histLabels t).map Prod.fst = ["kind", "db", "owner", "priority"] ∧
    (gaugeLabels t).map Prod.fst = ["db", "priority", "kind"] ∧
    kindStr t.kind ∈
      ["write-batch", "open-column-family", "flush-wal", "shutdown", "open-db"] := by
  refine ⟨rfl, rfl, rfl, rfl, ?_⟩
  cases hk : t.kind <;> simp [kindStr]

end Restate
